import Mathlib

/-!
Verification development for the shortcut registry and processing
orchestrator of the free-cluely repository
(src/electron/shortcuts.ts, src/electron/ProcessingHelper.ts).

The code is shallowly embedded: each workflow becomes a pure state
transition on an explicit orchestrator state, returning the ordered list
of IPC events it sends and the ordered list of language-model client
calls it makes.  External collaborators (the Electron window, the
screenshot queues, the LLM client) are inputs.
-/

/-! ## Markdown fence cleaning (ProcessingHelper.ts, line 222)

The source cleans a coding answer with
  result.text.replace(/三backticks cpp newline?/g, '')
        .replace(/三backticks newline?/g, '').trim()
(a JavaScript global regex replace: scan left to right, remove each
non-overlapping match).  We model each global replace as a left-to-right
scanner over the character list; the scanner takes the list length as
structural fuel (each step consumes at least one character, so the fuel
is sufficient and the function is total and computable). -/

/-- The backtick character (96). -/
def btick : Char := Char.ofNat 96

/-- Drop one leading newline if present; models the optional newline
at the end of the fence regexes. -/
def dropNl : List Char → List Char
  | [] => []
  | c :: rest => if c == '\n' then rest else c :: rest

/-- The characters of a cpp-tagged fence opener. -/
def cppOpen : List Char := [btick, btick, btick, 'c', 'p', 'p']

/-- The characters of a bare fence marker. -/
def fenceOpen : List Char := [btick, btick, btick]

/-- One global-replace pass removing every cpp fence opener together
with one optional trailing newline. -/
def replCppGo : Nat → List Char → List Char
  | 0, l => l
  | _ + 1, [] => []
  | fuel + 1, c :: rest =>
    if List.isPrefixOf cppOpen (c :: rest) then
      replCppGo fuel (dropNl (List.drop 5 rest))
    else
      c :: replCppGo fuel rest

/-- First replace of the cleaning pipeline. -/
def replCpp (l : List Char) : List Char := replCppGo l.length l

/-- One global-replace pass removing every bare fence marker together
with one optional trailing newline. -/
def replFenceGo : Nat → List Char → List Char
  | 0, l => l
  | _ + 1, [] => []
  | fuel + 1, c :: rest =>
    if List.isPrefixOf fenceOpen (c :: rest) then
      replFenceGo fuel (dropNl (List.drop 2 rest))
    else
      c :: replFenceGo fuel rest

/-- Second replace of the cleaning pipeline. -/
def replFence (l : List Char) : List Char := replFenceGo l.length l

/-- Whitespace as removed by the trim call on the cleaned text. -/
def isJsWs (c : Char) : Bool := c == ' ' || c == '\n' || c == '\t' || c == '\r'

/-- Remove leading and trailing whitespace; models String.prototype.trim. -/
def trimChars (l : List Char) : List Char :=
  ((l.dropWhile isJsWs).reverse.dropWhile isJsWs).reverse

/-- The full output cleaning of processCoding (ProcessingHelper.ts,
line 222), named after the local variable cleanText of the source. -/
def cleanText (l : List Char) : List Char := trimChars (replFence (replCpp l))

/-- Whether a cpp fence opener occurs anywhere in the text. -/
def hasCppFence (l : List Char) : Bool :=
  l.tails.any (fun t => List.isPrefixOf cppOpen t)

/-- A text fenced between bare markers: opener, language tag, newline,
body, newline, closer.  Used to state claims about the cleaning. -/
def fencedText (tag body : List Char) : List Char :=
  btick :: btick :: btick ::
    (tag ++ '\n' :: (body ++ '\n' :: btick :: btick :: btick :: []))

/-- Models JavaScript String.prototype.endsWith on path strings. -/
def endsWithCh (s sfx : String) : Bool :=
  List.isPrefixOf sfx.data.reverse s.data.reverse

/-- The audio classification of ProcessingHelper.ts, line 56: the last
queued path names audio exactly when it ends in .mp3 or .wav. -/
def hasAudioSuffix (p : String) : Bool :=
  endsWithCh p ".mp3" || endsWithCh p ".wav"

/-! ## JavaScript object values

The records built by the orchestrator are flat objects whose fields are
strings, empty arrays, empty objects, or one level of nested object.
This closed grammar covers every literal the source builds. -/

/-- Values inside a nested object: strings, empty arrays, empty objects. -/
inductive JPrim where
  | pstr (s : String)
  | parrEmpty
  | pobjEmpty
deriving DecidableEq, Repr

/-- Fields of a top-level record. -/
inductive JField where
  | fstr (s : String)
  | fobjEmpty
  | farrEmpty
  | fobj (fields : List (String × JPrim))
deriving DecidableEq, Repr

/-- A top-level JavaScript record: ordered field list. -/
abbrev JObj := List (String × JField)

/-- Field access on a record. -/
def lookupJ (o : JObj) (k : String) : Option JField := List.lookup k o

/-- Modelled from the spec: the analyze-audio-file collaborator
(LLMHelper, not under src/) returns a result object carrying the
transcript/analysis text; the workflow reads its text field
(ProcessingHelper.ts, line 62 uses audioResult.text), so the raw result
is modelled as an object holding the transcript under "text".  This raw
object is what line 61 sends with the extraction event. -/
def mkAudioResult (t : String) : JObj := [("text", JField.fstr t)]

/-- The record committed as ProblemInfo on the audio path
(ProcessingHelper.ts, line 62). -/
def audioProblemInfo (t : String) : JObj :=
  [("problem_statement", JField.fstr t),
   ("input_format", JField.fobjEmpty),
   ("output_format", JField.fobjEmpty),
   ("constraints", JField.farrEmpty),
   ("test_cases", JField.farrEmpty)]

/-- The record built on the image path (ProcessingHelper.ts, lines 77-85). -/
def imageProblemInfo (t : String) : JObj :=
  [("problem_statement", JField.fstr t),
   ("input_format", JField.fobj
      [("description", JPrim.pstr "Generated from screenshot"),
       ("parameters", JPrim.parrEmpty)]),
   ("output_format", JField.fobj
      [("description", JPrim.pstr "Generated from screenshot"),
       ("type", JPrim.pstr "string"),
       ("subtype", JPrim.pstr "text")]),
   ("complexity", JField.fobj
      [("time", JPrim.pstr "N/A"), ("space", JPrim.pstr "N/A")]),
   ("test_cases", JField.farrEmpty),
   ("validation_type", JField.fstr "manual"),
   ("difficulty", JField.fstr "custom")]

/-- The record built by processMcq (ProcessingHelper.ts, lines 189-197). -/
def mcqProblemInfo (t : String) : JObj :=
  [("problem_statement", JField.fstr t),
   ("input_format", JField.fobj
      [("description", JPrim.pstr "MCQ Mode"),
       ("parameters", JPrim.parrEmpty)]),
   ("output_format", JField.fobj
      [("description", JPrim.pstr "MCQ Answer"),
       ("type", JPrim.pstr "string"),
       ("subtype", JPrim.pstr "text")]),
   ("complexity", JField.fobj
      [("time", JPrim.pstr "N/A"), ("space", JPrim.pstr "N/A")]),
   ("test_cases", JField.farrEmpty),
   ("validation_type", JField.fstr "manual"),
   ("difficulty", JField.fstr "easy")]

/-- The payload sent on coding success (ProcessingHelper.ts, lines 229-233). -/
def codingSuccessPayload : JObj :=
  [("problem_statement", JField.fstr "Solution copied to clipboard!"),
   ("validation_type", JField.fstr "manual"),
   ("output_format", JField.fobj
      [("type", JPrim.pstr "text"), ("subtype", JPrim.pstr "text")])]

/-! ## Processing orchestrator (ProcessingHelper.ts) -/

/-- Events sent to the renderer via webContents.send, named after the
PROCESSING_EVENTS channels used by ProcessingHelper.ts. -/
inductive PEvent where
  | noScreenshots
  | initialStart
  | problemExtracted (payload : JObj)
  | initialSolutionError (msg : String)
  | debugStart
  | debugSuccess (payload : JObj)
  | debugError (msg : String)
  | solutionSuccess (payload : JObj)
deriving DecidableEq, Repr

/-- Language-model client invocations made by the orchestrator. -/
inductive LLMCall where
  | analyzeAudioFile (path : String)
  | analyzeImageFile (path : String)
  | analyzeImageMcq (path : String)
  | analyzeImageCoding (path : String)
  | generateSolution
  | debugSolutionWithImages
deriving DecidableEq, Repr

/-- Abort signals raised on the cancellation controllers. -/
inductive OrchSignal where
  | abortPrimary
  | abortExtra
deriving DecidableEq, Repr

/-- Responses of the external LLM client (LLMHelper): each call either
yields its result or throws with a message.  For the analysis calls the
result is the text the source reads from result.text; generateSolution
yields the code read from currentSolution.solution.code. -/
structure LLMOracle where
  analyzeAudioFile : String → Except String String
  analyzeImageFile : String → Except String String
  analyzeImageMcq : String → Except String String
  analyzeImageCoding : String → Except String String
  generateSolution : JObj → Except String String
  debugSolutionWithImages : JObj → String → List String → Except String JObj

/-- External collaborators as read by one workflow run: the window
handle, the two screenshot queues, the takeScreenshot outcome and the
LLM client. -/
structure Env where
  hasWindow : Bool
  screenshotQueue : List String
  extraScreenshotQueue : List String
  takeScreenshotResult : Except String String
  llm : LLMOracle

/-- The orchestrator-owned shared state: current view, committed
ProblemInfo, the HasDebugged flag, both cancellation slots
(currentProcessingAbortController and
currentExtraProcessingAbortController, active or null), and the system
clipboard written by processCoding. -/
structure OrchState where
  view : String
  problemInfo : Option JObj
  hasDebugged : Bool
  primarySlot : Bool
  extraSlot : Bool
  clipboard : String
deriving DecidableEq, Repr

/-- Result of one workflow run: the final state, the events sent in
order, and the LLM calls made in order. -/
structure Outcome where
  state : OrchState
  events : List PEvent
  calls : List LLMCall
deriving DecidableEq, Repr

/-- processScreenshots (ProcessingHelper.ts, lines 40-141): queue view
dispatches on the audio suffix of the most recent artifact; any other
view runs the debug workflow on the extra queue. -/
def processScreenshots (env : Env) (s : OrchState) : Outcome :=
  if env.hasWindow = false then ⟨s, [], []⟩
  else if s.view = "queue" then
    if env.screenshotQueue.length = 0 then ⟨s, [PEvent.noScreenshots], []⟩
    else
      let lastPath := env.screenshotQueue.getLastD ""
      if hasAudioSuffix lastPath then
        let s1 : OrchState := { s with view := "solutions" }
        match env.llm.analyzeAudioFile lastPath with
        | Except.ok t =>
            ⟨{ s1 with problemInfo := some (audioProblemInfo t) },
             [PEvent.initialStart, PEvent.problemExtracted (mkAudioResult t)],
             [LLMCall.analyzeAudioFile lastPath]⟩
        | Except.error m =>
            ⟨s1, [PEvent.initialStart, PEvent.initialSolutionError m],
             [LLMCall.analyzeAudioFile lastPath]⟩
      else
        let s1 : OrchState := { s with view := "solutions", primarySlot := true }
        match env.llm.analyzeImageFile lastPath with
        | Except.ok t =>
            ⟨{ s1 with problemInfo := some (imageProblemInfo t), primarySlot := false },
             [PEvent.initialStart, PEvent.problemExtracted (imageProblemInfo t)],
             [LLMCall.analyzeImageFile lastPath]⟩
        | Except.error m =>
            ⟨{ s1 with primarySlot := false },
             [PEvent.initialStart, PEvent.initialSolutionError m],
             [LLMCall.analyzeImageFile lastPath]⟩
  else
    if env.extraScreenshotQueue.length = 0 then ⟨s, [PEvent.noScreenshots], []⟩
    else
      let s1 : OrchState := { s with extraSlot := true }
      match s.problemInfo with
      | none =>
          ⟨{ s1 with extraSlot := false },
           [PEvent.debugStart, PEvent.debugError "No problem info available"], []⟩
      | some pi =>
        match env.llm.generateSolution pi with
        | Except.error m =>
            ⟨{ s1 with extraSlot := false },
             [PEvent.debugStart, PEvent.debugError m],
             [LLMCall.generateSolution]⟩
        | Except.ok code =>
          match env.llm.debugSolutionWithImages pi code env.extraScreenshotQueue with
          | Except.error m =>
              ⟨{ s1 with extraSlot := false },
               [PEvent.debugStart, PEvent.debugError m],
               [LLMCall.generateSolution, LLMCall.debugSolutionWithImages]⟩
          | Except.ok res =>
              ⟨{ s1 with extraSlot := false, hasDebugged := true },
               [PEvent.debugStart, PEvent.debugSuccess res],
               [LLMCall.generateSolution, LLMCall.debugSolutionWithImages]⟩

/-- cancelOngoingRequests (ProcessingHelper.ts, lines 143-155). -/
def cancelOngoingRequests (s : OrchState) : OrchState × List OrchSignal :=
  let sigs1 := if s.primarySlot then [OrchSignal.abortPrimary] else []
  let s1 : OrchState := { s with primarySlot := false }
  let sigs2 := if s1.extraSlot then [OrchSignal.abortExtra] else []
  let s2 : OrchState := { s1 with extraSlot := false }
  ({ s2 with hasDebugged := false }, sigs1 ++ sigs2)

/-- processMcq (ProcessingHelper.ts, lines 171-206): always runs the
image MCQ analysis on the most recent artifact of the primary queue. -/
def processMcq (env : Env) (s : OrchState) : Outcome :=
  if env.hasWindow = false then ⟨s, [], []⟩
  else if env.screenshotQueue.length = 0 then ⟨s, [PEvent.noScreenshots], []⟩
  else
    let lastPath := env.screenshotQueue.getLastD ""
    let s1 : OrchState := { s with view := "solutions", primarySlot := true }
    match env.llm.analyzeImageMcq lastPath with
    | Except.ok t =>
        ⟨{ s1 with problemInfo := some (mcqProblemInfo t), primarySlot := false },
         [PEvent.initialStart, PEvent.problemExtracted (mcqProblemInfo t)],
         [LLMCall.analyzeImageMcq lastPath]⟩
    | Except.error m =>
        ⟨{ s1 with primarySlot := false },
         [PEvent.initialStart, PEvent.initialSolutionError m],
         [LLMCall.analyzeImageMcq lastPath]⟩

/-- processCoding (ProcessingHelper.ts, lines 208-241): captures a fresh
screenshot, cleans the analysis text and writes it to the clipboard. -/
def processCoding (env : Env) (s : OrchState) : Outcome :=
  if env.hasWindow = false then ⟨s, [], []⟩
  else
    match env.takeScreenshotResult with
    | Except.error m => ⟨s, [PEvent.initialSolutionError m], []⟩
    | Except.ok screenshotPath =>
      match env.llm.analyzeImageCoding screenshotPath with
      | Except.error m =>
          ⟨s, [PEvent.initialSolutionError m],
           [LLMCall.analyzeImageCoding screenshotPath]⟩
      | Except.ok t =>
          ⟨{ s with clipboard := String.mk (cleanText t.data) },
           [PEvent.solutionSuccess codingSuccessPayload],
           [LLMCall.analyzeImageCoding screenshotPath]⟩

/-! ## Shortcut registry (shortcuts.ts) -/

/-- Outcome of running a piece of JavaScript: a value, or a thrown error. -/
inductive JsResult (α : Type) where
  | ok (val : α)
  | thrown (msg : String)
deriving DecidableEq, Repr

deriving instance DecidableEq for Except

/-- Behaviour of a shortcut callback on one invocation: a synchronous
function that returns or throws, or a function returning a promise that
resolves or rejects (shortcuts.ts accepts both shapes). -/
inductive CbBehavior where
  | sync (outcome : JsResult Unit)
  | promise (settled : Except String Unit)
deriving DecidableEq, Repr

/-- The failure a callback invocation produces, if any: a synchronous
throw or an asynchronous rejection. -/
def cbFailure : CbBehavior → Option String
  | CbBehavior.sync (JsResult.thrown m) => some m
  | CbBehavior.sync (JsResult.ok _) => none
  | CbBehavior.promise (Except.error m) => some m
  | CbBehavior.promise (Except.ok _) => none

/-- The console.error line of the wrapper (shortcuts.ts, lines 31 and 34). -/
def shortcutErrorLog (accelerator msg : String) : String :=
  "Error in shortcut " ++ accelerator ++ ": " ++ msg

/-- The try-block of the wrapped handler (shortcuts.ts, lines 28-32):
invoke the callback; a synchronous throw escapes the block; a returned
promise gets a catch handler attached, so a rejection is logged and
absorbed.  The value is the list of error logs produced. -/
def handlerTryBody (accelerator : String) (cb : CbBehavior) : JsResult (List String) :=
  match cb with
  | CbBehavior.sync (JsResult.thrown m) => JsResult.thrown m
  | CbBehavior.sync (JsResult.ok _) => JsResult.ok []
  | CbBehavior.promise (Except.error m) =>
      JsResult.ok [shortcutErrorLog accelerator m]
  | CbBehavior.promise (Except.ok _) => JsResult.ok []

/-- The full wrapped handler registered with the OS (shortcuts.ts,
lines 26-36): the try-block above inside a catch clause that logs a
synchronous throw and swallows it. -/
def shortcutHandler (accelerator : String) (cb : CbBehavior) : JsResult (List String) :=
  match handlerTryBody accelerator cb with
  | JsResult.thrown m => JsResult.ok [shortcutErrorLog accelerator m]
  | JsResult.ok logs => JsResult.ok logs

/-- The OS side of global shortcut registration: whether the OS grants a
given accelerator to this application (globalShortcut.register returns
false when the combination is claimed elsewhere or reserved). -/
structure OsEnv where
  accepts : String → Bool

/-- Registry state: the live OS registrations this app holds, and the
registeredShortcuts bookkeeping map (shortcuts.ts, line 6). -/
structure ShState where
  osRegistered : List String
  registeredShortcuts : List (String × Bool)
deriving DecidableEq, Repr

/-- Map.set on the bookkeeping map: replace or append. -/
def setAssoc (m : List (String × Bool)) (k : String) (v : Bool) : List (String × Bool) :=
  match m with
  | [] => [(k, v)]
  | (k1, v1) :: rest =>
      if k1 == k then (k, v) :: rest else (k1, v1) :: setAssoc rest k v

/-- registerShortcut (shortcuts.ts, lines 12-52): unregister first when
already held, attempt the OS claim, record the attempt in the map, and
return the OS verdict. -/
def registerShortcut (os : OsEnv) (st : ShState) (accelerator : String)
    (_cb : CbBehavior) (_description : String) : ShState × Bool :=
  let os0 := if st.osRegistered.contains accelerator
             then st.osRegistered.erase accelerator else st.osRegistered
  let ok := os.accepts accelerator
  let os1 := if ok then accelerator :: os0 else os0
  (⟨os1, setAssoc st.registeredShortcuts accelerator ok⟩, ok)

/-- The result record of registerWithFallback. -/
structure RegResult where
  success : Bool
  accelerator : Option String
deriving DecidableEq, Repr

/-- Outcome of a fallback registration: final registry state, the result
record, and the accelerators attempted in order. -/
structure RegOutcome where
  st : ShState
  result : RegResult
  attempts : List String
deriving Repr

/-- The fallback loop of registerWithFallback (shortcuts.ts, lines 67-72). -/
def registerFallbacks (os : OsEnv) (cb : CbBehavior) (description : String) :
    ShState → List String → RegOutcome
  | st, [] => ⟨st, ⟨false, none⟩, []⟩
  | st, f :: rest =>
    let r := registerShortcut os st f cb description
    if r.2 then ⟨r.1, ⟨true, some f⟩, [f]⟩
    else
      let out := registerFallbacks os cb description r.1 rest
      ⟨out.st, out.result, f :: out.attempts⟩

/-- registerWithFallback (shortcuts.ts, lines 54-76): try the primary
accelerator, then each fallback in order, stopping at the first success. -/
def registerWithFallback (os : OsEnv) (st : ShState) (primaryAccelerator : String)
    (fallbackAccelerators : List String) (cb : CbBehavior) (description : String) :
    RegOutcome :=
  let r := registerShortcut os st primaryAccelerator cb description
  if r.2 then ⟨r.1, ⟨true, some primaryAccelerator⟩, [primaryAccelerator]⟩
  else
    let out := registerFallbacks os cb description r.1 fallbackAccelerators
    ⟨out.st, out.result, primaryAccelerator :: out.attempts⟩

/-! ## Concrete inputs used to instantiate the theorems -/

/-- An LLM client whose calls all succeed with empty output. -/
def baseLLM : LLMOracle :=
  { analyzeAudioFile := fun _ => Except.ok ""
    analyzeImageFile := fun _ => Except.ok ""
    analyzeImageMcq := fun _ => Except.ok ""
    analyzeImageCoding := fun _ => Except.ok ""
    generateSolution := fun _ => Except.ok ""
    debugSolutionWithImages := fun _ _ _ => Except.ok [] }

/-- A default collaborator environment: window open, queues empty. -/
def baseEnv : Env :=
  { hasWindow := true
    screenshotQueue := []
    extraScreenshotQueue := []
    takeScreenshotResult := Except.ok "shot.png"
    llm := baseLLM }

/-- A fresh orchestrator state in the queue view. -/
def queueState : OrchState :=
  { view := "queue", problemInfo := none, hasDebugged := false
    primarySlot := false, extraSlot := false, clipboard := "" }

/-- A state in the solutions view (the debug branch of processScreenshots). -/
def solutionsState : OrchState := { queueState with view := "solutions" }

/-- Audio artifact queued, transcript analysis succeeding. -/
def audioOkEnv : Env :=
  { baseEnv with screenshotQueue := ["voice.mp3"]
                 llm := { baseLLM with analyzeAudioFile := fun _ => Except.ok "hello" } }

/-- Audio artifact queued, transcript analysis throwing. -/
def audioErrEnv : Env :=
  { baseEnv with screenshotQueue := ["voice.mp3"]
                 llm := { baseLLM with analyzeAudioFile := fun _ => Except.error "boom" } }

/-- Image artifact queued, image analysis throwing. -/
def imageErrEnv : Env :=
  { baseEnv with screenshotQueue := ["a.png"]
                 llm := { baseLLM with analyzeImageFile := fun _ => Except.error "boom" } }

/-- Image artifact queued, MCQ analysis throwing. -/
def mcqErrEnv : Env :=
  { baseEnv with screenshotQueue := ["a.png"]
                 llm := { baseLLM with analyzeImageMcq := fun _ => Except.error "boom" } }

/-- Coding analysis throwing. -/
def codingErrEnv : Env :=
  { baseEnv with llm := { baseLLM with analyzeImageCoding := fun _ => Except.error "boom" } }

/-- Audio-suffixed artifact queued, MCQ analysis succeeding. -/
def mcqAudioEnv : Env :=
  { baseEnv with screenshotQueue := ["voice.mp3"]
                 llm := { baseLLM with analyzeImageMcq := fun _ => Except.ok "answer" } }

/-- An extra screenshot queued, for the debug branch. -/
def debugQueueEnv : Env := { baseEnv with extraScreenshotQueue := ["b.png"] }

/-- The characters of a cpp-fenced minimal program, with literal
backtick fences and newlines. -/
def cppFencedChars : List Char :=
  btick :: btick :: btick :: 'c' :: 'p' :: 'p' :: '\n' ::
  'i' :: 'n' :: 't' :: ' ' :: 'm' :: 'a' :: 'i' :: 'n' :: '(' :: ')' :: '{' :: '}' ::
  '\n' :: btick :: btick :: btick :: []

/-- The characters of the minimal program with fences stripped. -/
def intMainChars : List Char :=
  'i' :: 'n' :: 't' :: ' ' :: 'm' :: 'a' :: 'i' :: 'n' :: '(' :: ')' :: '{' :: '}' :: []

/-- Coding analysis returning the cpp-fenced program. -/
def codingCppEnv : Env :=
  { baseEnv with
      llm := { baseLLM with
                 analyzeImageCoding := fun _ => Except.ok (String.mk cppFencedChars) } }

/-- A python language tag. -/
def pyTag : List Char := ['p', 'y', 't', 'h', 'o', 'n']

/-- A one-line body. -/
def xBody : List Char := ['x', '=', '1']

/-- A language tag beginning with the letters cpp. -/
def cpp17Tag : List Char := ['c', 'p', 'p', '1', '7']

/-- Coding analysis returning a cpp17-fenced body. -/
def codingCpp17Env : Env :=
  { baseEnv with
      llm := { baseLLM with
                 analyzeImageCoding :=
                   fun _ => Except.ok (String.mk (fencedText cpp17Tag xBody)) } }

/-- An OS that grants only the accelerator Alt+Shift+Space. -/
def osAltOnly : OsEnv := { accepts := fun a => a == "Alt+Shift+Space" }

/-- The empty registry state. -/
def sh0 : ShState := { osRegistered := [], registeredShortcuts := [] }

/-! ## Lemmas about the fence-cleaning scanners -/

theorem dropNl_length_le (l : List Char) : (dropNl l).length ≤ l.length := by
  cases l with
  | nil => exact Nat.le.refl
  | cons c rest =>
    simp only [dropNl]
    split
    · simp
    · exact Nat.le.refl

theorem replFenceGo_nil (f : Nat) : replFenceGo f [] = [] := by
  cases f <;> rfl

theorem replCppGo_nil (f : Nat) : replCppGo f [] = [] := by
  cases f <;> rfl

theorem replFenceGo_succ_cons (fuel : Nat) (c : Char) (rest : List Char) :
    replFenceGo (fuel + 1) (c :: rest) =
      if List.isPrefixOf fenceOpen (c :: rest) then
        replFenceGo fuel (dropNl (List.drop 2 rest))
      else c :: replFenceGo fuel rest := rfl

theorem replCppGo_succ_cons (fuel : Nat) (c : Char) (rest : List Char) :
    replCppGo (fuel + 1) (c :: rest) =
      if List.isPrefixOf cppOpen (c :: rest) then
        replCppGo fuel (dropNl (List.drop 5 rest))
      else c :: replCppGo fuel rest := rfl

theorem replFenceGo_fuel_irrel :
    ∀ f1 f2 l, l.length ≤ f1 → l.length ≤ f2 → replFenceGo f1 l = replFenceGo f2 l := by
  intro f1
  induction f1 with
  | zero =>
    intro f2 l h1 _
    have hl : l = [] := List.eq_nil_of_length_eq_zero (Nat.le_zero.mp h1)
    subst hl
    rw [replFenceGo_nil, replFenceGo_nil]
  | succ g1 ih =>
    intro f2 l h1 h2
    cases l with
    | nil => rw [replFenceGo_nil, replFenceGo_nil]
    | cons c rest =>
      cases f2 with
      | zero => simp at h2
      | succ g2 =>
        rw [replFenceGo_succ_cons, replFenceGo_succ_cons]
        simp only [List.length_cons] at h1 h2
        by_cases h : List.isPrefixOf fenceOpen (c :: rest) = true
        · rw [if_pos h, if_pos h]
          apply ih
          · have hd := dropNl_length_le (List.drop 2 rest)
            have hdr : (List.drop 2 rest).length ≤ rest.length := by
              simp [List.length_drop]
            omega
          · have hd := dropNl_length_le (List.drop 2 rest)
            have hdr : (List.drop 2 rest).length ≤ rest.length := by
              simp [List.length_drop]
            omega
        · rw [if_neg h, if_neg h]
          have := ih g2 rest (by omega) (by omega)
          rw [this]

theorem replFence_cons_ne (c : Char) (l : List Char) (h : (c == btick) = false) :
    replFence (c :: l) = c :: replFence l := by
  have hne : c ≠ btick := by intro e; subst e; simp at h
  have h2 : (btick == c) = false := by
    cases hb : btick == c
    · rfl
    · exact absurd (eq_of_beq hb).symm hne
  have hp : List.isPrefixOf fenceOpen (c :: l) = false := by
    simp [fenceOpen, List.isPrefixOf, h2]
  show replFenceGo (c :: l).length (c :: l) = c :: replFence l
  rw [List.length_cons, replFenceGo_succ_cons, if_neg (by simp [hp])]
  rfl

theorem replFence_append_noBt (t l : List Char)
    (h : ∀ c ∈ t, (c == btick) = false) :
    replFence (t ++ l) = t ++ replFence l := by
  induction t with
  | nil => simp
  | cons c t ih =>
    have hc := h c (by simp)
    have ht : ∀ x ∈ t, (x == btick) = false := fun x hx => h x (by simp [hx])
    rw [List.cons_append, replFence_cons_ne c (t ++ l) hc, ih ht, List.cons_append]

theorem replFence_fence (l : List Char) :
    replFence (btick :: btick :: btick :: l) = replFence (dropNl l) := by
  have hp : List.isPrefixOf fenceOpen (btick :: btick :: btick :: l) = true := by
    simp [fenceOpen, List.isPrefixOf]
  show replFenceGo (btick :: btick :: btick :: l).length (btick :: btick :: btick :: l) = _
  simp only [List.length_cons]
  rw [replFenceGo_succ_cons, if_pos (by simp [hp])]
  have hdrop : List.drop 2 (btick :: btick :: l) = l := rfl
  rw [hdrop]
  apply replFenceGo_fuel_irrel
  · have := dropNl_length_le l
    omega
  · exact Nat.le.refl

theorem replFence_triple : replFence [btick, btick, btick] = [] := by decide

theorem trimChars_cons_nl (l : List Char) : trimChars ('\n' :: l) = trimChars l := by
  have h : isJsWs '\n' = true := by decide
  simp [trimChars, List.dropWhile_cons, h]

theorem hasCppFence_cons (c : Char) (l : List Char) :
    hasCppFence (c :: l) = (List.isPrefixOf cppOpen (c :: l) || hasCppFence l) := by
  simp [hasCppFence, List.tails_cons]

theorem replCppGo_no_fence :
    ∀ fuel l, l.length ≤ fuel → hasCppFence l = false → replCppGo fuel l = l := by
  intro fuel
  induction fuel with
  | zero => intro l _ _; rfl
  | succ g ih =>
    intro l h hf
    cases l with
    | nil => rfl
    | cons c rest =>
      have hsplit : (List.isPrefixOf cppOpen (c :: rest) || hasCppFence rest) = false := by
        rw [← hasCppFence_cons]; exact hf
      rw [Bool.or_eq_false_iff] at hsplit
      obtain ⟨hpref, hrec⟩ := hsplit
      rw [replCppGo_succ_cons, if_neg (by simp [hpref])]
      simp only [List.length_cons] at h
      rw [ih rest (by omega) hrec]

theorem replCpp_no_fence (l : List Char) (h : hasCppFence l = false) :
    replCpp l = l :=
  replCppGo_no_fence l.length l Nat.le.refl h

theorem replFence_mid (t b : List Char)
    (ht : ∀ c ∈ t, (c == btick) = false) (hb : ∀ c ∈ b, (c == btick) = false) :
    replFence (t ++ '\n' :: (b ++ '\n' :: btick :: btick :: btick :: [])) =
      t ++ '\n' :: (b ++ ['\n']) := by
  rw [replFence_append_noBt t _ ht]
  rw [replFence_cons_ne '\n' _ (by decide)]
  rw [replFence_append_noBt b _ hb]
  rw [replFence_cons_ne '\n' _ (by decide)]
  rw [show ([btick, btick, btick] : List Char) = btick :: btick :: btick :: [] from rfl] at *
  rw [show replFence (btick :: btick :: btick :: []) = [] from replFence_triple]

/-- Claim C10 (amended): the output cleaning of processCoding removes
cpp-tagged fence openers together with their tag; for an analysis result
fenced with a language tag such that the text contains no cpp fence
opener (backtick-free tag and body), only the backtick fence markers are
removed before trimming, so the language tag survives as the first line
of the clipboard text. -/
theorem cleanText_preserves_nonCpp_tag (tag body : List Char)
    (hcpp : hasCppFence (fencedText tag body) = false)
    (htag : tag.all (fun c => !(c == btick)) = true)
    (hbody : body.all (fun c => !(c == btick)) = true) :
    cleanText (fencedText tag body) = trimChars (tag ++ '\n' :: (body ++ ['\n'])) := by
  have ht : ∀ c ∈ tag, (c == btick) = false := by
    intro c hc
    have := List.all_eq_true.mp htag c hc
    simpa using this
  have hb : ∀ c ∈ body, (c == btick) = false := by
    intro c hc
    have := List.all_eq_true.mp hbody c hc
    simpa using this
  unfold cleanText
  rw [replCpp_no_fence _ hcpp]
  show trimChars (replFence (btick :: btick :: btick ::
    (tag ++ '\n' :: (body ++ '\n' :: btick :: btick :: btick :: [])))) = _
  rw [replFence_fence]
  cases tag with
  | nil =>
    rw [show dropNl (([] : List Char) ++ '\n' :: (body ++ '\n' :: btick :: btick :: btick :: []))
          = body ++ '\n' :: btick :: btick :: btick :: [] from by simp [dropNl]]
    rw [replFence_append_noBt body _ hb]
    rw [replFence_cons_ne '\n' _ (by decide)]
    rw [show replFence (btick :: btick :: btick :: []) = [] from replFence_triple]
    rw [List.nil_append, trimChars_cons_nl]
  | cons c t =>
    have hc := ht c (by simp)
    have ht' : ∀ x ∈ t, (x == btick) = false := fun x hx => ht x (by simp [hx])
    by_cases hnl : (c == '\n') = true
    · have hceq : c = '\n' := by simpa using hnl
      subst hceq
      rw [show dropNl ((('\n' :: t) : List Char) ++ '\n' :: (body ++ '\n' :: btick :: btick :: btick :: []))
            = t ++ '\n' :: (body ++ '\n' :: btick :: btick :: btick :: []) from by simp [dropNl]]
      rw [replFence_mid t body ht' hb]
      rw [List.cons_append, trimChars_cons_nl]
    · have hnl' : (c == '\n') = false := by
        cases hx : c == '\n'
        · rfl
        · exact absurd hx hnl
      rw [show dropNl (((c :: t) : List Char) ++ '\n' :: (body ++ '\n' :: btick :: btick :: btick :: []))
            = (c :: t) ++ '\n' :: (body ++ '\n' :: btick :: btick :: btick :: []) from by
              simp [dropNl, List.cons_append, hnl']]
      rw [replFence_mid (c :: t) body ht hb]

/-- Witness for cleanText_preserves_nonCpp_tag: a python-tagged fence,
whose tag survives as the first line. -/
theorem cleanText_preserves_nonCpp_tag_witness :
    hasCppFence (fencedText pyTag xBody) = false
    ∧ pyTag.all (fun c => !(c == btick)) = true
    ∧ xBody.all (fun c => !(c == btick)) = true
    ∧ cleanText (fencedText pyTag xBody) = trimChars (pyTag ++ '\n' :: (xBody ++ ['\n']))
    ∧ cleanText (fencedText pyTag xBody) =
        'p' :: 'y' :: 't' :: 'h' :: 'o' :: 'n' :: '\n' :: 'x' :: '=' :: '1' :: [] :=
  ⟨by decide, by decide, by decide,
   cleanText_preserves_nonCpp_tag pyTag xBody (by decide) (by decide) (by decide),
   by decide⟩

/-- Claim C10 counterexample: a language tag beginning with the letters
cpp (here cpp17) does not survive the cleaning: the first replace
consumes its cpp prefix, so the clipboard text starts with 17, not with
the tag. -/
theorem cleanText_cpp17_tag_destroyed :
    cleanText (fencedText cpp17Tag xBody) = '1' :: '7' :: '\n' :: 'x' :: '=' :: '1' :: []
    ∧ (processCoding codingCpp17Env queueState).state.clipboard ≠
        String.mk ('c' :: 'p' :: 'p' :: '1' :: '7' :: '\n' :: 'x' :: '=' :: '1' :: []) :=
  ⟨by decide, by decide⟩

/-- Claim C6: when the coding-mode analysis returns the cpp-fenced
program, processCoding leaves the clipboard holding exactly the program
with fences and language tag stripped and trimmed, and emits the
terminal success notification whose problem_statement field says the
solution was copied. -/
theorem processCoding_cpp_clipboard (s : OrchState) :
    (processCoding codingCppEnv s).state.clipboard = String.mk intMainChars
    ∧ (processCoding codingCppEnv s).events = [PEvent.solutionSuccess codingSuccessPayload]
    ∧ lookupJ codingSuccessPayload "problem_statement" =
        some (JField.fstr "Solution copied to clipboard!") :=
  ⟨rfl, rfl, rfl⟩

/-! ## Orchestrator claims -/

/-- Claim C8: on an empty relevant queue (primary queue in queue view,
secondary queue in debug view), processScreenshots emits NoScreenshots
and returns with the state exactly unchanged (no ProblemInfo mutation,
no view change, no slot opened, no LLM call); likewise processMcq on an
empty primary queue. -/
theorem empty_queue_is_noop (env : Env) (s : OrchState) (hw : env.hasWindow = true) :
    (s.view = "queue" → env.screenshotQueue = [] →
       processScreenshots env s = ⟨s, [PEvent.noScreenshots], []⟩)
    ∧ (¬ s.view = "queue" → env.extraScreenshotQueue = [] →
       processScreenshots env s = ⟨s, [PEvent.noScreenshots], []⟩)
    ∧ (env.screenshotQueue = [] →
       processMcq env s = ⟨s, [PEvent.noScreenshots], []⟩) := by
  refine ⟨?_, ?_, ?_⟩
  · intro hv hq
    simp [processScreenshots, hw, hv, hq]
  · intro hv hq
    simp [processScreenshots, hw, hv, hq]
  · intro hq
    simp [processMcq, hw, hq]

/-- Witness for empty_queue_is_noop: all three empty-queue branches at
concrete inputs. -/
theorem empty_queue_is_noop_witness :
    processScreenshots baseEnv queueState = ⟨queueState, [PEvent.noScreenshots], []⟩
    ∧ processScreenshots baseEnv solutionsState = ⟨solutionsState, [PEvent.noScreenshots], []⟩
    ∧ processMcq baseEnv queueState = ⟨queueState, [PEvent.noScreenshots], []⟩ :=
  ⟨(empty_queue_is_noop baseEnv queueState rfl).1 rfl rfl,
   (empty_queue_is_noop baseEnv solutionsState rfl).2.1 (by decide) rfl,
   (empty_queue_is_noop baseEnv queueState rfl).2.2 rfl⟩

/-- Claim C3: the debug branch with a non-empty secondary queue but no
committed ProblemInfo: the run emits DebugStart then DebugError with the
message No problem info available, makes no LLM call (neither solution
regeneration nor vision debugging), leaves HasDebugged and every other
state component unchanged, and clears the secondary slot. -/
theorem debug_without_problem_info (env : Env) (s : OrchState)
    (hw : env.hasWindow = true) (hv : ¬ s.view = "queue")
    (hq : env.extraScreenshotQueue ≠ []) (hp : s.problemInfo = none) :
    processScreenshots env s =
      ⟨{ s with extraSlot := false },
       [PEvent.debugStart, PEvent.debugError "No problem info available"], []⟩ := by
  simp [processScreenshots, hw, hv, hp, List.length_eq_zero, hq]

/-- Witness for debug_without_problem_info. -/
theorem debug_without_problem_info_witness :
    debugQueueEnv.hasWindow = true
    ∧ ¬ solutionsState.view = "queue"
    ∧ debugQueueEnv.extraScreenshotQueue ≠ []
    ∧ solutionsState.problemInfo = none
    ∧ processScreenshots debugQueueEnv solutionsState =
        ⟨{ solutionsState with extraSlot := false },
         [PEvent.debugStart, PEvent.debugError "No problem info available"], []⟩ :=
  ⟨rfl, by decide, by decide, rfl,
   debug_without_problem_info debugQueueEnv solutionsState rfl (by decide) (by decide) rfl⟩

/-- Claim C5: cancelOngoingRequests is idempotent: one call clears both
slots and resets HasDebugged to false while signalling abort exactly on
the slots that were active; a second consecutive call returns the same
state and signals nothing. -/
theorem cancelOngoingRequests_idempotent (s : OrchState) :
    cancelOngoingRequests ((cancelOngoingRequests s).1) =
      ((cancelOngoingRequests s).1, ([] : List OrchSignal))
    ∧ (cancelOngoingRequests s).1 =
        { s with primarySlot := false, extraSlot := false, hasDebugged := false }
    ∧ (cancelOngoingRequests s).2 =
        (if s.primarySlot then [OrchSignal.abortPrimary] else [])
          ++ (if s.extraSlot then [OrchSignal.abortExtra] else []) :=
  ⟨rfl, rfl, rfl⟩

/-- Claim C2: a failed analysis call (image, audio, MCQ or coding
workflow) leaves the committed ProblemInfo exactly as before the
attempt, surfaces the failure message through the typed
InitialSolutionError event, and leaves the workflow with its slot
cleared (the audio and coding paths open no slot and leave both slots
untouched). -/
theorem analysis_failure_preserves_state (env : Env) (s : OrchState) (m : String)
    (hw : env.hasWindow = true) :
    (s.view = "queue" → env.screenshotQueue ≠ [] →
      hasAudioSuffix (env.screenshotQueue.getLastD "") = false →
      env.llm.analyzeImageFile (env.screenshotQueue.getLastD "") = Except.error m →
        (processScreenshots env s).state.problemInfo = s.problemInfo
        ∧ (processScreenshots env s).state.primarySlot = false
        ∧ (processScreenshots env s).events =
            [PEvent.initialStart, PEvent.initialSolutionError m])
    ∧ (s.view = "queue" → env.screenshotQueue ≠ [] →
      hasAudioSuffix (env.screenshotQueue.getLastD "") = true →
      env.llm.analyzeAudioFile (env.screenshotQueue.getLastD "") = Except.error m →
        (processScreenshots env s).state.problemInfo = s.problemInfo
        ∧ (processScreenshots env s).state.primarySlot = s.primarySlot
        ∧ (processScreenshots env s).state.extraSlot = s.extraSlot
        ∧ (processScreenshots env s).events =
            [PEvent.initialStart, PEvent.initialSolutionError m])
    ∧ (env.screenshotQueue ≠ [] →
      env.llm.analyzeImageMcq (env.screenshotQueue.getLastD "") = Except.error m →
        (processMcq env s).state.problemInfo = s.problemInfo
        ∧ (processMcq env s).state.primarySlot = false
        ∧ (processMcq env s).events =
            [PEvent.initialStart, PEvent.initialSolutionError m])
    ∧ (∀ p, env.takeScreenshotResult = Except.ok p →
      env.llm.analyzeImageCoding p = Except.error m →
        (processCoding env s).state = s
        ∧ (processCoding env s).events = [PEvent.initialSolutionError m]) := by
  refine ⟨?_, ?_, ?_, ?_⟩
  · intro hv hq ha ho
    simp only [List.getLastD_eq_getLast?] at ha ho
    simp [processScreenshots, hw, hv, ha, ho, List.length_eq_zero, hq]
  · intro hv hq ha ho
    simp only [List.getLastD_eq_getLast?] at ha ho
    simp [processScreenshots, hw, hv, ha, ho, List.length_eq_zero, hq]
  · intro hq ho
    simp only [List.getLastD_eq_getLast?] at ho
    simp [processMcq, hw, ho, List.length_eq_zero, hq]
  · intro p hc ho
    simp [processCoding, hw, hc, ho]

/-- Witness for analysis_failure_preserves_state: all four failing
workflows at concrete inputs. -/
theorem analysis_failure_preserves_state_witness :
    ((processScreenshots imageErrEnv queueState).state.problemInfo = queueState.problemInfo
      ∧ (processScreenshots imageErrEnv queueState).state.primarySlot = false
      ∧ (processScreenshots imageErrEnv queueState).events =
          [PEvent.initialStart, PEvent.initialSolutionError "boom"])
    ∧ ((processScreenshots audioErrEnv queueState).state.problemInfo = queueState.problemInfo
      ∧ (processScreenshots audioErrEnv queueState).state.primarySlot = queueState.primarySlot
      ∧ (processScreenshots audioErrEnv queueState).state.extraSlot = queueState.extraSlot
      ∧ (processScreenshots audioErrEnv queueState).events =
          [PEvent.initialStart, PEvent.initialSolutionError "boom"])
    ∧ ((processMcq mcqErrEnv queueState).state.problemInfo = queueState.problemInfo
      ∧ (processMcq mcqErrEnv queueState).state.primarySlot = false
      ∧ (processMcq mcqErrEnv queueState).events =
          [PEvent.initialStart, PEvent.initialSolutionError "boom"])
    ∧ ((processCoding codingErrEnv queueState).state = queueState
      ∧ (processCoding codingErrEnv queueState).events = [PEvent.initialSolutionError "boom"]) :=
  ⟨(analysis_failure_preserves_state imageErrEnv queueState "boom" rfl).1
      rfl (by decide) (by decide) rfl,
   (analysis_failure_preserves_state audioErrEnv queueState "boom" rfl).2.1
      rfl (by decide) (by decide) rfl,
   (analysis_failure_preserves_state mcqErrEnv queueState "boom" rfl).2.2.1
      (by decide) rfl,
   (analysis_failure_preserves_state codingErrEnv queueState "boom" rfl).2.2.2
      "shot.png" rfl rfl⟩

/-- Claim C4 counterexample: on a successful audio-path run the payload
emitted with the extraction event is the raw audio analysis result (an
object carrying the transcript under text), which differs from the
ProblemInfo record that gets committed; so the emitted payload does not
equal that record. -/
theorem audio_extracted_payload_is_raw_result :
    (processScreenshots audioOkEnv queueState).events =
      [PEvent.initialStart, PEvent.problemExtracted (mkAudioResult "hello")]
    ∧ (processScreenshots audioOkEnv queueState).state.problemInfo =
        some (audioProblemInfo "hello")
    ∧ mkAudioResult "hello" ≠ audioProblemInfo "hello" :=
  ⟨by decide, by decide, by decide⟩

/-- Claim C4 (amended): on every successful audio-path run the record
with the transcript as problem_statement, empty input and output
formats, empty constraints and empty test cases becomes the committed
ProblemInfo, the view moves to solutions, and the extraction event is
emitted carrying the raw audio analysis result object. -/
theorem audio_success_commits_record (env : Env) (s : OrchState) (t : String)
    (hw : env.hasWindow = true) (hv : s.view = "queue")
    (hq : env.screenshotQueue ≠ [])
    (ha : hasAudioSuffix (env.screenshotQueue.getLastD "") = true)
    (ho : env.llm.analyzeAudioFile (env.screenshotQueue.getLastD "") = Except.ok t) :
    processScreenshots env s =
      ⟨{ s with view := "solutions", problemInfo := some (audioProblemInfo t) },
       [PEvent.initialStart, PEvent.problemExtracted (mkAudioResult t)],
       [LLMCall.analyzeAudioFile (env.screenshotQueue.getLastD "")]⟩ := by
  simp only [List.getLastD_eq_getLast?] at ha ho ⊢
  simp [processScreenshots, hw, hv, ha, ho, List.length_eq_zero, hq]

/-- Witness for audio_success_commits_record. -/
theorem audio_success_commits_record_witness :
    audioOkEnv.hasWindow = true
    ∧ queueState.view = "queue"
    ∧ audioOkEnv.screenshotQueue ≠ []
    ∧ hasAudioSuffix (audioOkEnv.screenshotQueue.getLastD "") = true
    ∧ audioOkEnv.llm.analyzeAudioFile (audioOkEnv.screenshotQueue.getLastD "") =
        Except.ok "hello"
    ∧ processScreenshots audioOkEnv queueState =
        ⟨{ queueState with view := "solutions",
                           problemInfo := some (audioProblemInfo "hello") },
         [PEvent.initialStart, PEvent.problemExtracted (mkAudioResult "hello")],
         [LLMCall.analyzeAudioFile (audioOkEnv.screenshotQueue.getLastD "")]⟩ :=
  ⟨rfl, rfl, by decide, by decide, rfl,
   audio_success_commits_record audioOkEnv queueState "hello" rfl rfl
     (by decide) (by decide) rfl⟩

/-- Claim C9: processMcq performs no suffix classification: on every
non-empty primary queue its only LLM call is the image-MCQ analysis of
the most recent artifact (never the audio analysis), even when that
artifact has an audio suffix; and on success it commits the MCQ-shaped
record whose difficulty field is easy. -/
theorem processMcq_no_suffix_dispatch (env : Env) (s : OrchState) (t : String)
    (hw : env.hasWindow = true) (hq : env.screenshotQueue ≠ []) :
    (processMcq env s).calls = [LLMCall.analyzeImageMcq (env.screenshotQueue.getLastD "")]
    ∧ LLMCall.analyzeAudioFile (env.screenshotQueue.getLastD "") ∉ (processMcq env s).calls
    ∧ (env.llm.analyzeImageMcq (env.screenshotQueue.getLastD "") = Except.ok t →
        (processMcq env s).state.problemInfo = some (mcqProblemInfo t)
        ∧ lookupJ (mcqProblemInfo t) "difficulty" = some (JField.fstr "easy")) := by
  have hcalls : (processMcq env s).calls =
      [LLMCall.analyzeImageMcq (env.screenshotQueue.getLastD "")] := by
    simp only [List.getLastD_eq_getLast?]
    rcases hres : env.llm.analyzeImageMcq (env.screenshotQueue.getLast?.getD "") with t0 | m0
    · simp [processMcq, hw, hres, List.length_eq_zero, hq]
    · simp [processMcq, hw, hres, List.length_eq_zero, hq]
  refine ⟨hcalls, ?_, ?_⟩
  · rw [hcalls]
    simp
  · intro ho
    simp only [List.getLastD_eq_getLast?] at ho
    constructor
    · simp [processMcq, hw, ho, List.length_eq_zero, hq]
    · rfl

/-- Witness for processMcq_no_suffix_dispatch: the queued artifact has
an audio suffix, yet the MCQ path still calls the image analysis. -/
theorem processMcq_no_suffix_dispatch_witness :
    hasAudioSuffix (mcqAudioEnv.screenshotQueue.getLastD "") = true
    ∧ (processMcq mcqAudioEnv queueState).calls =
        [LLMCall.analyzeImageMcq (mcqAudioEnv.screenshotQueue.getLastD "")]
    ∧ LLMCall.analyzeAudioFile (mcqAudioEnv.screenshotQueue.getLastD "") ∉
        (processMcq mcqAudioEnv queueState).calls
    ∧ (processMcq mcqAudioEnv queueState).state.problemInfo =
        some (mcqProblemInfo "answer")
    ∧ lookupJ (mcqProblemInfo "answer") "difficulty" = some (JField.fstr "easy") :=
  ⟨by decide,
   (processMcq_no_suffix_dispatch mcqAudioEnv queueState "answer" rfl (by decide)).1,
   (processMcq_no_suffix_dispatch mcqAudioEnv queueState "answer" rfl (by decide)).2.1,
   (processMcq_no_suffix_dispatch mcqAudioEnv queueState "answer" rfl (by decide)).2.2 rfl |>.1,
   (processMcq_no_suffix_dispatch mcqAudioEnv queueState "answer" rfl (by decide)).2.2 rfl |>.2⟩

/-! ## Shortcut registry claims -/

theorem registerShortcut_snd (os : OsEnv) (st : ShState) (a : String)
    (cb : CbBehavior) (d : String) :
    (registerShortcut os st a cb d).2 = os.accepts a := rfl

theorem registerFallbacks_spec (os : OsEnv) (cb : CbBehavior) (d : String) :
    ∀ (fbs : List String) (st : ShState),
      (registerFallbacks os cb d st fbs).result =
        (match fbs.find? os.accepts with
         | some c => ⟨true, some c⟩
         | none => ⟨false, none⟩)
      ∧ (registerFallbacks os cb d st fbs).attempts =
        (match fbs.find? os.accepts with
         | some c => fbs.takeWhile (fun x => !(os.accepts x)) ++ [c]
         | none => fbs) := by
  intro fbs
  induction fbs with
  | nil => intro st; exact ⟨rfl, rfl⟩
  | cons f rest ih =>
    intro st
    cases hr : os.accepts f with
    | true =>
      constructor
      · simp [registerFallbacks, registerShortcut_snd, hr,
              List.find?_cons_of_pos _ hr]
      · simp [registerFallbacks, registerShortcut_snd, hr,
              List.find?_cons_of_pos _ hr, List.takeWhile_cons]
    | false =>
      obtain ⟨ihr, iha⟩ := ih (registerShortcut os st f cb d).1
      have hfind : List.find? os.accepts (f :: rest) = List.find? os.accepts rest :=
        List.find?_cons_of_neg _ (by simp [hr])
      constructor
      · simp only [registerFallbacks, registerShortcut_snd, hr]
        simp only [Bool.false_eq_true, if_false]
        rw [ihr, hfind]
      · simp only [registerFallbacks, registerShortcut_snd, hr]
        simp only [Bool.false_eq_true, if_false]
        rw [iha, hfind]
        cases List.find? os.accepts rest <;>
          simp [List.takeWhile_cons, hr]

/-- Claim C1: registerWithFallback attempts the primary accelerator
first and then each fallback in list order, stops at the first candidate
the OS grants and reports it as the resolved accelerator; when the
primary is refused and some fallback is available, the reported
accelerator is the first available fallback; when every candidate is
refused the result is success false with no accelerator and no error is
raised. -/
theorem registerWithFallback_first_available (os : OsEnv) (st : ShState)
    (p : String) (fbs : List String) (cb : CbBehavior) (d : String) :
    ((registerWithFallback os st p fbs cb d).result =
      (match (p :: fbs).find? os.accepts with
       | some c => ⟨true, some c⟩
       | none => ⟨false, none⟩))
    ∧ ((registerWithFallback os st p fbs cb d).attempts =
      (match (p :: fbs).find? os.accepts with
       | some c => (p :: fbs).takeWhile (fun x => !(os.accepts x)) ++ [c]
       | none => p :: fbs))
    ∧ (os.accepts p = false → ∀ f, fbs.find? os.accepts = some f →
        (registerWithFallback os st p fbs cb d).result = ⟨true, some f⟩) := by
  have main :
      ((registerWithFallback os st p fbs cb d).result =
        (match (p :: fbs).find? os.accepts with
         | some c => ⟨true, some c⟩
         | none => ⟨false, none⟩))
      ∧ ((registerWithFallback os st p fbs cb d).attempts =
        (match (p :: fbs).find? os.accepts with
         | some c => (p :: fbs).takeWhile (fun x => !(os.accepts x)) ++ [c]
         | none => p :: fbs)) := by
    cases hr : os.accepts p with
    | true =>
      constructor
      · simp [registerWithFallback, registerShortcut_snd, hr,
              List.find?_cons_of_pos _ hr]
      · simp [registerWithFallback, registerShortcut_snd, hr,
              List.find?_cons_of_pos _ hr, List.takeWhile_cons]
    | false =>
      obtain ⟨ihr, iha⟩ :=
        registerFallbacks_spec os cb d fbs (registerShortcut os st p cb d).1
      have hfind : List.find? os.accepts (p :: fbs) = List.find? os.accepts fbs :=
        List.find?_cons_of_neg _ (by simp [hr])
      constructor
      · simp only [registerWithFallback, registerShortcut_snd, hr]
        simp only [Bool.false_eq_true, if_false]
        rw [ihr, hfind]
      · simp only [registerWithFallback, registerShortcut_snd, hr]
        simp only [Bool.false_eq_true, if_false]
        rw [iha, hfind]
        cases List.find? os.accepts fbs <;>
          simp [List.takeWhile_cons, hr]
  refine ⟨main.1, main.2, ?_⟩
  intro hp f hf
  rw [main.1]
  rw [List.find?_cons_of_neg _ (by simp [hp]), hf]

/-- Witness for registerWithFallback_first_available: the OS refuses the
primary and the first fallback and grants the second fallback, which is
reported. -/
theorem registerWithFallback_first_available_witness :
    osAltOnly.accepts "CommandOrControl+Shift+Space" = false
    ∧ List.find? osAltOnly.accepts ["CommandOrControl+Shift+S", "Alt+Shift+Space"] =
        some "Alt+Shift+Space"
    ∧ (registerWithFallback osAltOnly sh0 "CommandOrControl+Shift+Space"
         ["CommandOrControl+Shift+S", "Alt+Shift+Space"]
         (CbBehavior.sync (JsResult.ok ())) "Show/Center Window").result =
        ⟨true, some "Alt+Shift+Space"⟩ :=
  ⟨by decide, by decide,
   (registerWithFallback_first_available osAltOnly sh0 "CommandOrControl+Shift+Space"
      ["CommandOrControl+Shift+S", "Alt+Shift+Space"]
      (CbBehavior.sync (JsResult.ok ())) "Show/Center Window").2.2
     (by decide) "Alt+Shift+Space" (by decide)⟩

/-- Claim C7: the handler wrapped around every shortcut callback never
lets an error escape to the OS dispatch layer: for every callback
behaviour the handler returns normally; a synchronous throw or an
asynchronous rejection is caught and logged, and a clean run logs
nothing. -/
theorem shortcutHandler_never_throws (accelerator : String) (cb : CbBehavior) :
    (∀ m, ¬ shortcutHandler accelerator cb = JsResult.thrown m)
    ∧ (∀ m, cbFailure cb = some m →
        shortcutHandler accelerator cb =
          JsResult.ok [shortcutErrorLog accelerator m])
    ∧ (cbFailure cb = none → shortcutHandler accelerator cb = JsResult.ok []) := by
  refine ⟨?_, ?_, ?_⟩
  · intro m
    cases cb with
    | sync o => cases o <;> simp [shortcutHandler, handlerTryBody]
    | promise st => cases st <;> simp [shortcutHandler, handlerTryBody]
  · intro m hm
    cases cb with
    | sync o =>
      cases o with
      | ok _ => simp [cbFailure] at hm
      | thrown m0 =>
        simp only [cbFailure, Option.some.injEq] at hm
        subst hm
        rfl
    | promise st =>
      cases st with
      | ok _ => simp [cbFailure] at hm
      | error m0 =>
        simp only [cbFailure, Option.some.injEq] at hm
        subst hm
        rfl
  · intro hm
    cases cb with
    | sync o =>
      cases o with
      | ok _ => rfl
      | thrown m0 => simp [cbFailure] at hm
    | promise st =>
      cases st with
      | ok _ => rfl
      | error m0 => simp [cbFailure] at hm

/-- Witness for shortcutHandler_never_throws: a synchronous throw and an
asynchronous rejection are both absorbed and logged; a clean synchronous
run logs nothing. -/
theorem shortcutHandler_never_throws_witness :
    shortcutHandler "CommandOrControl+H" (CbBehavior.sync (JsResult.thrown "sync boom")) =
      JsResult.ok [shortcutErrorLog "CommandOrControl+H" "sync boom"]
    ∧ shortcutHandler "CommandOrControl+H" (CbBehavior.promise (Except.error "async boom")) =
      JsResult.ok [shortcutErrorLog "CommandOrControl+H" "async boom"]
    ∧ shortcutHandler "CommandOrControl+H" (CbBehavior.sync (JsResult.ok ())) =
      JsResult.ok [] :=
  ⟨(shortcutHandler_never_throws "CommandOrControl+H"
      (CbBehavior.sync (JsResult.thrown "sync boom"))).2.1 "sync boom" rfl,
   (shortcutHandler_never_throws "CommandOrControl+H"
      (CbBehavior.promise (Except.error "async boom"))).2.1 "async boom" rfl,
   (shortcutHandler_never_throws "CommandOrControl+H"
      (CbBehavior.sync (JsResult.ok ()))).2.2 rfl⟩
